import Mathlib

/-!
Shallow embedding of the recording-sharing module (`openadapt/share.py`)
and the completion adapter (`puterbot/strategies/llm_mixin.py`).

Modelling conventions:
* File-system state is a list of existing path basenames.  All the
  artifacts this code manipulates live in the recording directory, so
  directory prefixes are elided and a path is just its basename.
* Python exceptions are modelled with `Except`; an uncaught exception is
  an `Except.error` outcome, a swallowed one leaves `Except.ok`.
* Machine strings are `String` (lists of `Char` underneath); prompts of
  the completion adapter are modelled directly as `List Char` because the
  relevant operations are `len` and slicing.
-/

/-- Python exception kinds that occur in the embedded code. -/
inductive PyErr where
  | typeError
  | valueError
  | ioError
  | calledProcessError
  | badZipFile
  deriving DecidableEq, Repr

/-- Zero-digit codepoints of every Unicode decimal-digit run (general
category Nd, Unicode 14.0 — the tables of the CPython era this code
targets).  Every Nd run is ten consecutive codepoints carrying the
digit values 0 through 9; Python matches `\d` in a `str` pattern
against exactly these characters, and `int()` assigns each its offset
in its run. -/
def decimalZeroBases : List Nat :=
  [48, 0x660, 0x6F0, 0x7C0, 0x966, 0x9E6, 0xA66, 0xAE6, 0xB66, 0xBE6,
   0xC66, 0xCE6, 0xD66, 0xDE6, 0xE50, 0xED0, 0xF20, 0x1040, 0x1090,
   0x17E0, 0x1810, 0x1946, 0x19D0, 0x1A80, 0x1A90, 0x1B50, 0x1BB0,
   0x1C40, 0x1C50, 0xA620, 0xA8D0, 0xA900, 0xA9D0, 0xA9F0, 0xAA50,
   0xABF0, 0xFF10, 0x104A0, 0x10D30, 0x11066, 0x110F0, 0x11136,
   0x111D0, 0x112F0, 0x11450, 0x114D0, 0x11650, 0x116C0, 0x11730,
   0x118E0, 0x11950, 0x11C50, 0x11D50, 0x11DA0, 0x16A60, 0x16AC0,
   0x16B50, 0x1D7CE, 0x1D7D8, 0x1D7E2, 0x1D7EC, 0x1D7F6, 0x1E140,
   0x1E2F0, 0x1E950, 0x1FBF0]

/-- Python regex `\d` applied to a `str` pattern: any Unicode decimal
digit, not only ASCII. -/
def pyDigit (c : Char) : Bool :=
  decimalZeroBases.any (fun z => decide (z ≤ c.toNat ∧ c.toNat < z + 10))

/-- Decimal value of a digit character (what Python `int` assigns to
one digit of a digit string): its offset inside its Unicode digit
run. -/
def digitVal (c : Char) : Nat :=
  match decimalZeroBases.find? (fun z => decide (z ≤ c.toNat ∧ c.toNat < z + 10)) with
  | some z => c.toNat - z
  | none => 0

/-- Numeric value of a digit string, most significant digit first
(Python `int(s)` on a nonempty digit string). -/
def natFromDigits (l : List Char) : Nat :=
  l.foldl (fun a c => a * 10 + digitVal c) 0

/-- Fuelled decimal printer, most significant digit first.  The fuel is
only there to make the recursion structural; `natDecimal` supplies
enough of it. -/
def natDecimalAux : Nat → Nat → List Char
  | 0, _ => []
  | fuel + 1, n =>
    if n < 10 then [Nat.digitChar n]
    else natDecimalAux fuel (n / 10) ++ [Nat.digitChar (n % 10)]

/-- Decimal representation of a natural number: Python `str(n)` /
f-string interpolation of a nonnegative `int`. -/
def natDecimal (n : Nat) : List Char := natDecimalAux (n + 1) n

/-- Strip a literal head from a character list: `some rest` when the
list starts with `pat`, `none` otherwise. -/
def stripHead : List Char → List Char → Option (List Char)
  | [], l => some l
  | _ :: _, [] => none
  | p :: ps, c :: cs => if p = c then stripHead ps cs else none

/-- The literal head of every recording artifact name. -/
def headerChars : List Char := "recording_".data

/-- The part of the regex `recording_\d+_(\d+)\.db` before the literal
extension: match `recording_`, a nonempty digit run, `_`, and a nonempty
digit run, returning the captured second run and the remaining
characters.  Regex backtracking makes both digit runs maximal (each is
followed by a non-digit in any successful match), which the `takeWhile`
parse mirrors exactly.  `pyDigit` carries the full Unicode
decimal-digit table that Python applies to `str` patterns. -/
def scanPattern (l : List Char) : Option (List Char × List Char) :=
  match stripHead headerChars l with
  | none => none
  | some r1 =>
    let d1 := r1.takeWhile pyDigit
    let r2 := r1.dropWhile pyDigit
    if d1 = [] then none
    else
      match r2 with
      | [] => none
      | c2 :: r3 =>
        if c2 = '_' then
          let d2 := r3.takeWhile pyDigit
          let r4 := r3.dropWhile pyDigit
          if d2 = [] then none else some (d2, r4)
        else none

/-- Core of `extract_timestamp_from_filename`:
`re.match(r"recording_\d+_(\d+)\.db", filename)` followed by `int` on
the captured group.  `re.match` anchors at the start of the string only,
so characters after `.db` are permitted.  `none` models the raised
`ValueError("Invalid filename format.")`. -/
def extractCore (l : List Char) : Option Nat :=
  match scanPattern l with
  | none => none
  | some (d2, r4) =>
    match stripHead ".db".data r4 with
    | none => none
    | some _ => some (natFromDigits d2)

/-- Embedding of `extract_timestamp_from_filename` from `share.py`. -/
def extract_timestamp_from_filename (filename : String) : Option Nat :=
  extractCore filename.data

/-- The exported database file basename
`f"recording_{recording_id}_{timestamp}.db"`. -/
def encodeDbFilename (recording_id timestamp : Nat) : String :=
  ⟨headerChars ++ (natDecimal recording_id ++ ('_' :: (natDecimal timestamp ++ ".db".data)))⟩

/-- The archive basename `f"recording_{recording_id}_{timestamp}.zip"`. -/
def encodeZipFilename (recording_id timestamp : Nat) : String :=
  ⟨headerChars ++ (natDecimal recording_id ++ ('_' :: (natDecimal timestamp ++ ".zip".data)))⟩

/-- Decidable check that a basename is an Export Artifact name,
`recording_<digits>_<digits>.db` exactly. -/
def isDbArtifactName (s : String) : Bool :=
  match scanPattern s.data with
  | some (_, r) => r == ".db".data
  | none => false

/-- Decidable check that a basename is an Archive name,
`recording_<digits>_<digits>.zip` exactly. -/
def isZipArchiveName (s : String) : Bool :=
  match scanPattern s.data with
  | some (_, r) => r == ".zip".data
  | none => false

/-- Number of Export Artifacts present in a file-system state. -/
def countDbArtifacts (fs : List String) : Nat :=
  fs.countP (fun f => isDbArtifactName f)

/-- Number of Archives present in a file-system state. -/
def countZipArchives (fs : List String) : Nat :=
  fs.countP (fun f => isZipArchiveName f)

/-- Create a file (Python opening a path for writing): no duplicate
entries, creating an existing path leaves the state unchanged
(overwrite). -/
def fsCreate (fs : List String) (p : String) : List String :=
  if p ∈ fs then fs else p :: fs

/-- Delete a file, `os.remove`. -/
def fsRemove (fs : List String) (p : String) : List String := fs.erase p

/-- Result of `export_recording_to_folder`: the file-system snapshots
taken after each primitive file operation, the final file-system state,
and either the returned zip path or the propagated exception. -/
structure ExportResult where
  snapshots : List (List String)
  fs : List String
  result : Except PyErr String
  deriving Repr

/-- Embedding of `export_recording_to_folder`.  `db.export_recording` is
an external collaborator; modelled from the spec: it creates the
exported database file, whose basename encodes the recording id and its
creation timestamp as `recording_<id>_<timestamp>.db`.  `archiveFails`
chooses the behaviour of the `ZipFile` write; the archive file itself
is already created by the `ZipFile` constructor before any write, so a
failing write leaves the partially written archive on disk, raises
uncaught, and the exported database file is not deleted on that
path. -/
def export_recording_to_folder (recording_id timestamp : Nat)
    (archiveFails : Bool) (fs0 : List String) : ExportResult :=
  -- recording_db_path = db.export_recording(recording_id)
  let recording_db_path := encodeDbFilename recording_id timestamp
  let fs1 := fsCreate fs0 recording_db_path
  -- timestamp = extract_timestamp_from_filename(os.path.basename(recording_db_path))
  match extract_timestamp_from_filename recording_db_path with
  | none =>
    -- ValueError("Invalid filename format.") propagates
    { snapshots := [fs0, fs1], fs := fs1, result := Except.error PyErr.valueError }
  | some ts =>
    -- zip_filename = f"recording_{recording_id}_{timestamp}.zip"
    let zip_path := encodeZipFilename recording_id ts
    -- ZipFile(zip_path, "w", ZIP_DEFLATED, compresslevel=9) creates the
    -- archive file already in its constructor (io.open(file, "w+b"))
    let fs2 := fsCreate fs1 zip_path
    if archiveFails then
      -- zip_file.write raised; propagates uncaught, leaving the
      -- partially written archive on disk
      { snapshots := [fs0, fs1, fs2], fs := fs2, result := Except.error PyErr.ioError }
    else
      -- os.remove(recording_db_path)
      let fs3 := fsRemove fs2 recording_db_path
      { snapshots := [fs0, fs1, fs2, fs3], fs := fs3, result := Except.ok zip_path }

/-- Result of `send_recording`: snapshots, final file-system state and
outcome (`Except.error` = an exception propagated to the caller). -/
structure SendRun where
  snapshots : List (List String)
  fs : List String
  outcome : Except PyErr Unit
  deriving Repr

/-- Embedding of `send_recording`.  The call to
`export_recording_to_folder` sits before the `try`, so its exceptions
propagate.  `send_file` wraps a `CalledProcessError` of the external
transfer tool into `Exception`, which the `except Exception` clause
catches and logs; hence `sendFails` never changes control flow past the
`try`.  The `finally` clause deletes the zip file when it exists. -/
def send_recording (recording_id timestamp : Nat)
    (archiveFails sendFails : Bool) (fs0 : List String) : SendRun :=
  let e := export_recording_to_folder recording_id timestamp archiveFails fs0
  match e.result with
  | Except.error err =>
    { snapshots := e.snapshots, fs := e.fs, outcome := Except.error err }
  | Except.ok zip_file_path =>
    -- try: send_file(zip_file_path) ... except Exception: logged, swallowed
    let _ := sendFails
    -- finally: if os.path.exists(zip_file_path): os.remove(zip_file_path)
    let fs2 := if zip_file_path ∈ e.fs then fsRemove e.fs zip_file_path else e.fs
    { snapshots := e.snapshots ++ [fs2], fs := fs2, outcome := Except.ok () }

/-- Embedding of `receive_recording`.  The received file has the fixed
basename `recording.zip`.  `receiveFails` chooses the behaviour of the
`wormhole receive` subprocess (its `CalledProcessError` is caught by the
`except subprocess.CalledProcessError` clause and logged);
`extractFails` chooses the behaviour of `ZipFile.extractall`, whose
exception is not a `CalledProcessError` and therefore propagates.
`entry` is the basename of the archive entry written by a successful
extraction.  The `finally` clause deletes `recording.zip` when it
exists.  Returns the final file-system state and the outcome. -/
def receive_recording (receiveFails extractFails : Bool) (entry : String)
    (fs0 : List String) : List String × Except PyErr Unit :=
  let zip_path : String := "recording.zip"
  let afterTry : List String × Except PyErr Unit :=
    if receiveFails then
      -- subprocess.CalledProcessError: caught, logged, swallowed
      (fs0, Except.ok ())
    else
      let fs1 := fsCreate fs0 zip_path
      if extractFails then
        -- e.g. zipfile.BadZipFile: not a CalledProcessError, propagates
        (fs1, Except.error PyErr.badZipFile)
      else
        (fsCreate fs1 entry, Except.ok ())
  -- finally: if os.path.exists(zip_path): os.remove(zip_path)
  let fs2 := if zip_path ∈ afterTry.1 then fsRemove afterTry.1 zip_path else afterTry.1
  (fs2, afterTry.2)

/-- Assignment `os.environ["DB_FNAME"] = v` where `v` is the Python
value previously read by `os.getenv`: assigning a `str` succeeds,
assigning `None` raises `TypeError` (environment values must be
strings). -/
def setEnvVar (_env : Option String) (v : Option String) :
    Except PyErr (Option String) :=
  match v with
  | some s => Except.ok (some s)
  | none => Except.error PyErr.typeError

/-- Embedding of `visualize_recording`, restricted to its effect on the
`DB_FNAME` process environment variable.  `env0` is the initial value of
the variable (`none` = unset, what `os.getenv` returns as `None`).
`config.persist_env` is a collaborator that writes a dotenv file and is
modelled as having no effect on the process environment;
`config.set_db_url`, `create_engine`, the migration subprocess and the
visualization collaborator do not touch `DB_FNAME` either.  `vizRaises`
chooses the behaviour of the visualization collaborator; its exception
is caught by the `except Exception` clause and logged, so it never
changes control flow past the `try`.  The `finally` clause assigns
`old_val` back into `os.environ`.  Returns the final value of the
variable and the outcome. -/
def visualize_recording (env0 : Option String) (db_name : String)
    (vizRaises : Bool) : Option String × Except PyErr Unit :=
  -- old_val = os.getenv("DB_FNAME")
  let old_val := env0
  -- os.environ["DB_FNAME"] = db_name  (db_name is a str, always succeeds)
  let env1 : Option String := some db_name
  -- try: ... visualize.main(...) ... except Exception as exc: logged, swallowed
  let _ := vizRaises
  -- finally: os.environ["DB_FNAME"] = old_val; config.persist_env("DB_FNAME", old_val)
  match setEnvVar env1 old_val with
  | Except.ok env2 => (env2, Except.ok ())
  | Except.error e => (env1, Except.error e)

/-- Spec-side predicate, following the spec text: the filename matches
`recording_<digits>_<digits>.db` exactly, with no extra leading or
trailing characters. -/
def SpecExactMatch (s : String) : Prop :=
  ∃ d1 d2 : List Char, d1 ≠ [] ∧ d2 ≠ [] ∧
    (∀ c ∈ d1, pyDigit c = true) ∧ (∀ c ∈ d2, pyDigit c = true) ∧
    s.data = headerChars ++ (d1 ++ ('_' :: (d2 ++ ".db".data)))

/-- Spec-side predicate: some head of the filename matches
`recording_<digits>_<digits>.db`, arbitrary characters may follow
(what `re.match` without an end anchor actually requires). -/
def SpecHeadMatch (s : String) : Prop :=
  ∃ d1 d2 rest : List Char, d1 ≠ [] ∧ d2 ≠ [] ∧
    (∀ c ∈ d1, pyDigit c = true) ∧ (∀ c ∈ d2, pyDigit c = true) ∧
    s.data = headerChars ++ (d1 ++ ('_' :: (d2 ++ (".db".data ++ rest))))

/-- External collaborators of the completion adapter: the tokenizer
encoding, the freshly generated continuation ids produced by the model,
and the tokenizer decoding. -/
structure LLMStub where
  tok : List Char → List Nat
  newTokens : List Nat → Nat → List Nat
  decodeTok : List Nat → List Char

/-- Modelled from the spec: `model.generate` is an external collaborator
that returns the echoed input token span followed by the newly generated
tokens. -/
def generate (S : LLMStub) (input_ids : List Nat) (max_tokens : Nat) : List Nat :=
  input_ids ++ S.newTokens input_ids max_tokens

/-- The prompt actually passed to the tokenizer by `get_completion`:
`if model_max_length and len(prompt) > model_max_length: prompt =
prompt[:model_max_length]`.  `model_max_length` is `none` for Python
`None`; `some 0` and `none` are both falsy. -/
def effectivePrompt (model_max_length : Option Nat) (prompt : List Char) :
    List Char :=
  match model_max_length with
  | none => prompt
  | some k => if k ≠ 0 ∧ k < prompt.length then prompt.take k else prompt

/-- Embedding of `LLMReplayStrategyMixin.get_completion`: possibly
truncate the prompt, tokenize it, generate one sequence of up to
`max_tokens` new tokens, and decode only the positions strictly after
the `N` input tokens (`output_tokens[:, N:]`). -/
def get_completion (S : LLMStub) (model_max_length : Option Nat)
    (prompt : List Char) (max_tokens : Nat) : List Char :=
  let prompt1 := effectivePrompt model_max_length prompt
  let input_tokens := S.tok prompt1
  let output_tokens := generate S input_tokens max_tokens
  let N := input_tokens.length
  S.decodeTok (output_tokens.drop N)

/-- A concrete collaborator instance, used to exercise the completion
adapter on closed inputs. -/
def sampleStub : LLMStub where
  tok := fun l => l.map Char.toNat
  newTokens := fun input max_tokens => (List.range max_tokens).map (fun i => input.length + i)
  decodeTok := fun toks => toks.map Char.ofNat

/-! Helper lemmas about decimal digits and the decimal printer. -/

theorem digitChar_isDigit {d : Nat} (h : d < 10) :
    pyDigit (Nat.digitChar d) = true := by
  interval_cases d <;> decide

theorem digitVal_digitChar {d : Nat} (h : d < 10) :
    digitVal (Nat.digitChar d) = d := by
  interval_cases d <;> decide

theorem natFromDigits_snoc (l : List Char) (c : Char) :
    natFromDigits (l ++ [c]) = natFromDigits l * 10 + digitVal c := by
  simp [natFromDigits, List.foldl_append]

theorem natDecimalAux_digits :
    ∀ fuel n : Nat, ∀ c ∈ natDecimalAux fuel n, pyDigit c = true := by
  intro fuel
  induction fuel with
  | zero => intro n c hc; simp [natDecimalAux] at hc
  | succ m ih =>
    intro n c hc
    by_cases h : n < 10
    · simp [natDecimalAux, h] at hc
      subst hc
      exact digitChar_isDigit h
    · simp [natDecimalAux, h, List.mem_append] at hc
      rcases hc with hc | hc
      · exact ih (n / 10) c hc
      · subst hc
        exact digitChar_isDigit (Nat.mod_lt n (by norm_num))

theorem natDecimal_digits (n : Nat) :
    ∀ c ∈ natDecimal n, pyDigit c = true :=
  natDecimalAux_digits (n + 1) n

theorem natDecimalAux_ne_nil (m n : Nat) :
    natDecimalAux (m + 1) n ≠ [] := by
  by_cases h : n < 10 <;> simp [natDecimalAux, h]

theorem natDecimal_ne_nil (n : Nat) : natDecimal n ≠ [] :=
  natDecimalAux_ne_nil n n

theorem natFromDigits_natDecimalAux :
    ∀ fuel n : Nat, n < 10 ^ fuel →
      natFromDigits (natDecimalAux fuel n) = n := by
  intro fuel
  induction fuel with
  | zero =>
    intro n hn
    simp at hn
    simp [hn, natDecimalAux, natFromDigits]
  | succ m ih =>
    intro n hn
    by_cases h : n < 10
    · simp [natDecimalAux, h, natFromDigits, digitVal_digitChar h]
    · have hdiv : n / 10 < 10 ^ m := by
        rw [Nat.div_lt_iff_lt_mul (by norm_num : (0:Nat) < 10)]
        calc n < 10 ^ (m + 1) := hn
        _ = 10 ^ m * 10 := by ring
      simp only [natDecimalAux, h, if_false]
      rw [natFromDigits_snoc, ih (n / 10) hdiv,
        digitVal_digitChar (Nat.mod_lt n (by norm_num))]
      omega

theorem natFromDigits_natDecimal (n : Nat) :
    natFromDigits (natDecimal n) = n := by
  have h : n < 10 ^ (n + 1) := by
    calc n < 2 ^ n := Nat.lt_two_pow n
    _ ≤ 10 ^ n := Nat.pow_le_pow_left (by norm_num) n
    _ ≤ 10 ^ (n + 1) := Nat.pow_le_pow_right (by norm_num) (Nat.le_succ n)
  exact natFromDigits_natDecimalAux (n + 1) n h

/-! Helper lemmas about `stripHead`, `takeWhile` and `dropWhile`. -/

theorem stripHead_append (p r : List Char) : stripHead p (p ++ r) = some r := by
  induction p with
  | nil => rfl
  | cons a as ih => simp [stripHead, ih]

theorem stripHead_sound :
    ∀ p l r : List Char, stripHead p l = some r → l = p ++ r := by
  intro p
  induction p with
  | nil =>
    intro l r h
    simp [stripHead] at h
    simp [h]
  | cons a as ih =>
    intro l r h
    cases l with
    | nil => simp [stripHead] at h
    | cons c cs =>
      by_cases hac : a = c
      · subst hac
        simp [stripHead] at h
        simpa using ih cs r h
      · simp [stripHead, hac] at h

theorem takeWhile_append_stop (p : Char → Bool) (l1 : List Char) (c : Char)
    (l2 : List Char) (h1 : ∀ x ∈ l1, p x = true) (hc : p c = false) :
    (l1 ++ c :: l2).takeWhile p = l1 := by
  induction l1 with
  | nil => simp [List.takeWhile_cons, hc]
  | cons a as ih =>
    have ha : p a = true := h1 a (by simp)
    simp [List.takeWhile_cons, ha]
    exact ih (fun x hx => h1 x (by simp [hx]))

theorem dropWhile_append_stop (p : Char → Bool) (l1 : List Char) (c : Char)
    (l2 : List Char) (h1 : ∀ x ∈ l1, p x = true) (hc : p c = false) :
    (l1 ++ c :: l2).dropWhile p = c :: l2 := by
  induction l1 with
  | nil => simp [List.dropWhile_cons, hc]
  | cons a as ih =>
    have ha : p a = true := h1 a (by simp)
    simp [List.dropWhile_cons, ha]
    exact ih (fun x hx => h1 x (by simp [hx]))

/-! The regex scan applied to an encoded artifact name. -/

theorem scanPattern_encodeGen (a b : Nat) (c : Char) (rest : List Char)
    (hc : pyDigit c = false) :
    scanPattern (headerChars ++ (natDecimal a ++ ('_' :: (natDecimal b ++ (c :: rest))))) =
      some (natDecimal b, c :: rest) := by
  have ht1 : (natDecimal a ++ ('_' :: (natDecimal b ++ (c :: rest)))).takeWhile pyDigit
      = natDecimal a :=
    takeWhile_append_stop _ _ _ _ (natDecimal_digits a) (by decide)
  have hd1 : (natDecimal a ++ ('_' :: (natDecimal b ++ (c :: rest)))).dropWhile pyDigit
      = '_' :: (natDecimal b ++ (c :: rest)) :=
    dropWhile_append_stop _ _ _ _ (natDecimal_digits a) (by decide)
  have ht2 : (natDecimal b ++ (c :: rest)).takeWhile pyDigit = natDecimal b :=
    takeWhile_append_stop _ _ _ _ (natDecimal_digits b) hc
  have hd2 : (natDecimal b ++ (c :: rest)).dropWhile pyDigit = c :: rest :=
    dropWhile_append_stop _ _ _ _ (natDecimal_digits b) hc
  simp [scanPattern, stripHead_append, ht1, hd1, ht2, hd2,
    natDecimal_ne_nil a, natDecimal_ne_nil b]

theorem extract_encode (a b : Nat) :
    extract_timestamp_from_filename (encodeDbFilename a b) = some b := by
  have hdata : (encodeDbFilename a b).data =
      headerChars ++ (natDecimal a ++ ('_' :: (natDecimal b ++ ('.' :: ['d', 'b'])))) := rfl
  have hstrip : stripHead ".db".data ('.' :: ['d', 'b']) = some [] := rfl
  unfold extract_timestamp_from_filename extractCore
  rw [hdata, scanPattern_encodeGen a b '.' ['d', 'b'] (by decide)]
  simp [hstrip, natFromDigits_natDecimal]

theorem isDb_encodeDb (a b : Nat) :
    isDbArtifactName (encodeDbFilename a b) = true := by
  have hdata : (encodeDbFilename a b).data =
      headerChars ++ (natDecimal a ++ ('_' :: (natDecimal b ++ ('.' :: ['d', 'b'])))) := rfl
  unfold isDbArtifactName
  rw [hdata, scanPattern_encodeGen a b '.' ['d', 'b'] (by decide)]
  rfl

theorem isZip_encodeZip (a b : Nat) :
    isZipArchiveName (encodeZipFilename a b) = true := by
  have hdata : (encodeZipFilename a b).data =
      headerChars ++ (natDecimal a ++ ('_' :: (natDecimal b ++ ('.' :: ['z', 'i', 'p'])))) := rfl
  unfold isZipArchiveName
  rw [hdata, scanPattern_encodeGen a b '.' ['z', 'i', 'p'] (by decide)]
  rfl

theorem isZip_encodeDb (a b : Nat) :
    isZipArchiveName (encodeDbFilename a b) = false := by
  have hdata : (encodeDbFilename a b).data =
      headerChars ++ (natDecimal a ++ ('_' :: (natDecimal b ++ ('.' :: ['d', 'b'])))) := rfl
  unfold isZipArchiveName
  rw [hdata, scanPattern_encodeGen a b '.' ['d', 'b'] (by decide)]
  rfl

theorem isDb_encodeZip (a b : Nat) :
    isDbArtifactName (encodeZipFilename a b) = false := by
  have hdata : (encodeZipFilename a b).data =
      headerChars ++ (natDecimal a ++ ('_' :: (natDecimal b ++ ('.' :: ['z', 'i', 'p'])))) := rfl
  unfold isDbArtifactName
  rw [hdata, scanPattern_encodeGen a b '.' ['z', 'i', 'p'] (by decide)]
  rfl

theorem encodeDb_ne_encodeZip (a b a' b' : Nat) :
    encodeDbFilename a b ≠ encodeZipFilename a' b' := by
  intro h
  have h1 := isDb_encodeDb a b
  rw [h, isDb_encodeZip] at h1
  simp at h1

/-! Helper lemmas about the file-system model. -/

theorem mem_fsCreate_iff (fs : List String) (p q : String) :
    q ∈ fsCreate fs p ↔ q = p ∨ q ∈ fs := by
  unfold fsCreate
  split
  · rename_i hp
    constructor
    · exact Or.inr
    · rintro (rfl | h)
      · exact hp
      · assumption
  · simp [List.mem_cons]

theorem mem_fsCreate_self (fs : List String) (p : String) :
    p ∈ fsCreate fs p := (mem_fsCreate_iff fs p p).mpr (Or.inl rfl)

theorem nodup_fsCreate (fs : List String) (p : String) (h : fs.Nodup) :
    (fsCreate fs p).Nodup := by
  unfold fsCreate
  split
  · exact h
  · rename_i hp
    exact List.nodup_cons.mpr ⟨hp, h⟩

theorem not_mem_erase_self {fs : List String} (p : String) (h : fs.Nodup) :
    p ∉ fs.erase p := by
  intro hmem
  rw [List.Nodup.mem_erase_iff h] at hmem
  exact hmem.1 rfl

/-- C1: for every recording id (and creation timestamp), after
`send_recording` returns — transfer succeeded or the transfer failure
was swallowed, i.e. archiving did not raise — neither the temporary
exported database file nor the zip archive exists on disk, and no
exception reaches the caller. -/
theorem send_recording_cleanup (a b : Nat) (sf : Bool) (fs0 : List String)
    (h : fs0.Nodup) :
    encodeDbFilename a b ∉ (send_recording a b false sf fs0).fs ∧
    encodeZipFilename a b ∉ (send_recording a b false sf fs0).fs ∧
    (send_recording a b false sf fs0).outcome = Except.ok () := by
  have hNod1 : (fsCreate fs0 (encodeDbFilename a b)).Nodup := nodup_fsCreate _ _ h
  have hNod2 : (fsCreate (fsCreate fs0 (encodeDbFilename a b))
      (encodeZipFilename a b)).Nodup := nodup_fsCreate _ _ hNod1
  have hP3 : encodeDbFilename a b ∉
      (fsCreate (fsCreate fs0 (encodeDbFilename a b))
        (encodeZipFilename a b)).erase (encodeDbFilename a b) :=
    not_mem_erase_self _ hNod2
  have hNod3 : ((fsCreate (fsCreate fs0 (encodeDbFilename a b))
      (encodeZipFilename a b)).erase (encodeDbFilename a b)).Nodup :=
    hNod2.erase _
  simp only [send_recording, export_recording_to_folder, extract_encode,
    Bool.false_eq_true, if_false, fsRemove]
  by_cases hmem : encodeZipFilename a b ∈
      (fsCreate (fsCreate fs0 (encodeDbFilename a b))
        (encodeZipFilename a b)).erase (encodeDbFilename a b)
  · simp only [hmem, if_true]
    refine ⟨?_, ?_, trivial⟩
    · intro hP
      exact hP3 (List.mem_of_mem_erase hP)
    · exact not_mem_erase_self _ hNod3
  · simp only [hmem, if_false]
    exact ⟨hP3, not_false, trivial⟩

/-- Witness for `send_recording_cleanup` at a concrete input. -/
theorem send_recording_cleanup_witness :
    ([] : List String).Nodup ∧
    (encodeDbFilename 1 2 ∉ (send_recording 1 2 false true []).fs ∧
     encodeZipFilename 1 2 ∉ (send_recording 1 2 false true []).fs ∧
     (send_recording 1 2 false true []).outcome = Except.ok ()) :=
  ⟨List.nodup_nil, send_recording_cleanup 1 2 true [] List.nodup_nil⟩


/-- C3: for all (id, timestamp) pairs, decoding the filename produced by
the encoder returns the original timestamp. -/
theorem decode_encode_roundtrip (recording_id timestamp : Nat) :
    extract_timestamp_from_filename (encodeDbFilename recording_id timestamp) =
      some timestamp :=
  extract_encode recording_id timestamp

/-- C5 counterexample: with a succeeding transfer subprocess and a
failing archive extraction, `receive_recording` lets the extraction
exception propagate to the caller instead of swallowing it. -/
theorem receive_recording_extraction_raises :
    (receive_recording false true "entry.db" []).2 =
      Except.error PyErr.badZipFile := rfl

/-- C5 amended: the outcome of `receive_recording` is an exception
exactly when the transfer subprocess succeeded and the archive
extraction failed; a transfer subprocess failure is caught, logged and
swallowed, so the caller sees a completed call. -/
theorem receive_recording_outcome (rf ef : Bool) (entry : String)
    (fs0 : List String) :
    (receive_recording rf ef entry fs0).2 =
      if rf = false ∧ ef = true then Except.error PyErr.badZipFile
      else Except.ok () := by
  cases rf <;> cases ef <;> simp [receive_recording]

/-- C9: the received archive `recording.zip` does not exist after
`receive_recording`, also when an exception propagates out of it (the
deletion sits in a finally block). -/
theorem receive_recording_zip_deleted (rf ef : Bool) (entry : String)
    (fs0 : List String) (h : fs0.Nodup) :
    "recording.zip" ∉ (receive_recording rf ef entry fs0).1 := by
  cases rf with
  | true =>
    simp only [receive_recording, eq_self_iff_true, if_true, fsRemove]
    by_cases hm : ("recording.zip" : String) ∈ fs0
    · simp only [hm, if_true]
      exact not_mem_erase_self _ h
    · simp only [hm, if_false]
      exact not_false
  | false =>
    have hn1 : (fsCreate fs0 "recording.zip").Nodup := nodup_fsCreate _ _ h
    cases ef with
    | true =>
      simp only [receive_recording, Bool.false_eq_true, if_false,
        eq_self_iff_true, if_true, fsRemove]
      have hm : ("recording.zip" : String) ∈ fsCreate fs0 "recording.zip" :=
        mem_fsCreate_self _ _
      simp only [hm, if_true]
      exact not_mem_erase_self _ hn1
    | false =>
      have hn2 : (fsCreate (fsCreate fs0 "recording.zip") entry).Nodup :=
        nodup_fsCreate _ _ hn1
      simp only [receive_recording, Bool.false_eq_true, if_false, fsRemove]
      have hm : ("recording.zip" : String) ∈
          fsCreate (fsCreate fs0 "recording.zip") entry :=
        (mem_fsCreate_iff _ _ _).mpr (Or.inr (mem_fsCreate_self _ _))
      simp only [hm, if_true]
      exact not_mem_erase_self _ hn2

/-- Witness for `receive_recording_zip_deleted` at a concrete input on
which the archive pre-exists. -/
theorem receive_recording_zip_deleted_witness :
    (["recording.zip"] : List String).Nodup ∧
    "recording.zip" ∉ (receive_recording true false "entry.db" ["recording.zip"]).1 :=
  ⟨by decide, receive_recording_zip_deleted true false "entry.db" ["recording.zip"] (by decide)⟩

/-- C2 (code-bug evaluation): when `DB_FNAME` was unset before the call,
the finally-block restoration assigns `None` into the environment, which
raises `TypeError`; `DB_FNAME` is left set to the new database name and
the exception propagates, for either behaviour of the visualization
collaborator.  When the variable was previously set, restoration does
succeed. -/
theorem visualize_recording_unset_restore_bug :
    visualize_recording none "recording.db" false =
      (some "recording.db", Except.error PyErr.typeError) ∧
    visualize_recording none "recording.db" true =
      (some "recording.db", Except.error PyErr.typeError) :=
  ⟨rfl, rfl⟩

/-- When `DB_FNAME` was previously set, `visualize_recording` restores
it and returns normally (the swallowed collaborator exception
notwithstanding). -/
theorem visualize_recording_restores_when_set (s db_name : String)
    (vizRaises : Bool) :
    visualize_recording (some s) db_name vizRaises =
      (some s, Except.ok ()) := rfl

/-- C8: the returned completion is decoded only from the token positions
strictly after the echoed input-prompt tokens, for every tokenizer,
generator behaviour and prompt. -/
theorem get_completion_decodes_only_new_tokens (S : LLMStub)
    (model_max_length : Option Nat) (prompt : List Char) (max_tokens : Nat) :
    get_completion S model_max_length prompt max_tokens =
      S.decodeTok
        (S.newTokens (S.tok (effectivePrompt model_max_length prompt)) max_tokens) := by
  simp [get_completion, generate, List.drop_left]

/-- C7: with a truthy `model_max_length`, a prompt longer than the bound
is truncated to exactly its first `model_max_length` characters before
tokenization (truncating again changes nothing), and a prompt within the
bound is passed unchanged. -/
theorem get_completion_truncates (S : LLMStub) (k : Nat)
    (prompt : List Char) (max_tokens : Nat) (hk : k ≠ 0) :
    (k < prompt.length →
      effectivePrompt (some k) prompt = prompt.take k ∧
      get_completion S (some k) prompt max_tokens =
        get_completion S (some k) (prompt.take k) max_tokens) ∧
    (prompt.length ≤ k → effectivePrompt (some k) prompt = prompt) := by
  constructor
  · intro hlen
    have he : effectivePrompt (some k) prompt = prompt.take k := by
      simp [effectivePrompt, hk, hlen]
    have hlt : (prompt.take k).length = k := by
      rw [List.length_take]
      omega
    have he2 : effectivePrompt (some k) (prompt.take k) = prompt.take k := by
      simp [effectivePrompt, hlt]
    refine ⟨he, ?_⟩
    simp [get_completion, he, he2]
  · intro hle
    have hnl : ¬ k < prompt.length := Nat.not_lt.mpr hle
    simp [effectivePrompt, hnl]

/-- Witness for `get_completion_truncates` at a concrete input. -/
theorem get_completion_truncates_witness :
    (2 : Nat) ≠ 0 ∧
    ((2 < (['a', 'b', 'c'] : List Char).length →
       effectivePrompt (some 2) ['a', 'b', 'c'] = (['a', 'b', 'c'] : List Char).take 2 ∧
       get_completion sampleStub (some 2) ['a', 'b', 'c'] 1 =
         get_completion sampleStub (some 2) ((['a', 'b', 'c'] : List Char).take 2) 1) ∧
     ((['a', 'b', 'c'] : List Char).length ≤ 2 →
       effectivePrompt (some 2) ['a', 'b', 'c'] = ['a', 'b', 'c'])) :=
  ⟨by decide, get_completion_truncates sampleStub 2 ['a', 'b', 'c'] 1 (by decide)⟩

/-- C10: a falsy `model_max_length` (Python `None` or `0`) disables
truncation entirely: the full prompt is tokenized and used as model
input regardless of its length. -/
theorem get_completion_no_truncation_when_falsy (S : LLMStub)
    (prompt : List Char) (max_tokens : Nat) :
    effectivePrompt none prompt = prompt ∧
    effectivePrompt (some 0) prompt = prompt ∧
    get_completion S none prompt max_tokens =
      S.decodeTok (S.newTokens (S.tok prompt) max_tokens) ∧
    get_completion S (some 0) prompt max_tokens =
      S.decodeTok (S.newTokens (S.tok prompt) max_tokens) := by
  refine ⟨rfl, by simp [effectivePrompt], ?_, ?_⟩ <;>
    simp [get_completion, generate, effectivePrompt, List.drop_left]

/-- Soundness of the regex scan: a successful scan exhibits the
matched decomposition of the input. -/
theorem scanPattern_sound (l d2 r4 : List Char)
    (h : scanPattern l = some (d2, r4)) :
    ∃ d1 : List Char, d1 ≠ [] ∧ d2 ≠ [] ∧
      (∀ c ∈ d1, pyDigit c = true) ∧ (∀ c ∈ d2, pyDigit c = true) ∧
      l = headerChars ++ (d1 ++ ('_' :: (d2 ++ r4))) := by
  unfold scanPattern at h
  cases hs : stripHead headerChars l with
  | none => rw [hs] at h; simp at h
  | some r1 =>
    rw [hs] at h
    simp only at h
    by_cases hd1 : r1.takeWhile pyDigit = []
    · rw [if_pos hd1] at h; simp at h
    · rw [if_neg hd1] at h
      cases hr2 : r1.dropWhile pyDigit with
      | nil => rw [hr2] at h; simp at h
      | cons c2 r3 =>
        rw [hr2] at h
        simp only at h
        by_cases hc2 : c2 = '_'
        · rw [if_pos hc2] at h
          by_cases hd2 : r3.takeWhile pyDigit = []
          · rw [if_pos hd2] at h; simp at h
          · rw [if_neg hd2] at h
            simp only [Option.some.injEq, Prod.mk.injEq] at h
            obtain ⟨hd2eq, hr4eq⟩ := h
            refine ⟨r1.takeWhile pyDigit, hd1, ?_, ?_, ?_, ?_⟩
            · rw [← hd2eq]
              exact hd2
            · intro c hc
              exact List.mem_takeWhile_imp hc
            · intro c hc
              rw [← hd2eq] at hc
              exact List.mem_takeWhile_imp hc
            · have hl : l = headerChars ++ r1 := stripHead_sound _ _ _ hs
              have hr1 : r1 = r1.takeWhile pyDigit ++ ('_' :: r3) := by
                conv_lhs => rw [← List.takeWhile_append_dropWhile pyDigit r1]
                rw [hr2, hc2]
              have hr1' : r1 = r1.takeWhile pyDigit ++ ('_' :: (d2 ++ r4)) := by
                conv_lhs => rw [hr1]
                rw [← hd2eq, ← hr4eq, List.takeWhile_append_dropWhile]
              calc l = headerChars ++ r1 := hl
                _ = headerChars ++ (r1.takeWhile pyDigit ++ ('_' :: (d2 ++ r4))) := by
                    rw [← hr1']
        · rw [if_neg hc2] at h; simp at h

/-- Soundness of the decoder: a successful decode means some head of
the filename matches the pattern recording_<digits>_<digits>.db. -/
theorem extract_some_headMatch (s : String) (n : Nat)
    (h : extract_timestamp_from_filename s = some n) : SpecHeadMatch s := by
  unfold extract_timestamp_from_filename extractCore at h
  cases hs : scanPattern s.data with
  | none => rw [hs] at h; simp at h
  | some pr =>
    obtain ⟨d2, r4⟩ := pr
    rw [hs] at h
    simp only at h
    cases hstr : stripHead ".db".data r4 with
    | none => rw [hstr] at h; simp at h
    | some rest =>
      obtain ⟨d1, hne1, hne2, hdig1, hdig2, heq⟩ := scanPattern_sound _ _ _ hs
      have hr4 : r4 = ".db".data ++ rest := stripHead_sound _ _ _ hstr
      exact ⟨d1, d2, rest, hne1, hne2, hdig1, hdig2, by rw [heq, hr4]⟩

/-- C4 amended: the decoder fails (raises ValueError, the spec FormatError)
for every filename in which no head matches recording_<digits>_<digits>.db;
filenames with trailing characters after .db are accepted because
re.match has no end anchor. -/
theorem extract_fails_without_head_pattern (s : String) (h : ¬ SpecHeadMatch s) :
    extract_timestamp_from_filename s = none := by
  cases hx : extract_timestamp_from_filename s with
  | none => rfl
  | some n => exact absurd (extract_some_headMatch s n hx) h

/-- C4 counterexample: recording_1_2.dbx does not match the pattern
exactly, yet the decoder accepts it and returns 2 instead of failing
with FormatError. -/
theorem extract_trailing_chars_counterexample :
    ¬ SpecExactMatch "recording_1_2.dbx" ∧
    extract_timestamp_from_filename "recording_1_2.dbx" = some 2 := by
  constructor
  · rintro ⟨d1, d2, h1, h2, h3, h4, h5⟩
    have e : ("recording_1_2.dbx".data : List Char) =
        ['r','e','c','o','r','d','i','n','g','_','1','_','2','.','d','b','x'] := rfl
    have e2 : (".db".data : List Char) = ['.', 'd', 'b'] := rfl
    have e3 : headerChars = ['r','e','c','o','r','d','i','n','g','_'] := rfl
    rw [e, e2, e3] at h5
    have hrev := congrArg List.reverse h5
    simp [List.reverse_append] at hrev
  · rfl

/-- Witness for the amended C4 theorem at a concrete input. -/
theorem extract_fails_without_head_pattern_witness :
    ¬ SpecHeadMatch "hello" ∧ extract_timestamp_from_filename "hello" = none := by
  have hnm : ¬ SpecHeadMatch "hello" := by
    rintro ⟨d1, d2, rest, h1, h2, h3, h4, h5⟩
    have hlen := congrArg List.length h5
    have e1 : ("hello".data).length = 5 := rfl
    have e2 : headerChars.length = 10 := rfl
    rw [e1] at hlen
    simp [List.length_append, e2] at hlen
    omega
  exact ⟨hnm, extract_fails_without_head_pattern "hello" hnm⟩

/-- The decoder accepts non-ASCII Unicode decimal digits exactly as
Python does: ARABIC-INDIC DIGIT TWO decodes with value 2. -/
theorem extract_unicode_digit_example :
    extract_timestamp_from_filename "recording_1_٢.db" = some 2 := by decide

/-- C6 counterexample: when archive creation fails, the `ZipFile`
constructor has already created the archive file, so the partially
written archive (and the exported database file) remain on disk at the
moment the exception propagates out of `send_recording` — the archive
is not removed before the operation returns, contrary to the claim's
single stated exception. -/
theorem send_recording_archive_fail_counterexample :
    countZipArchives (send_recording 1 2 true false []).fs = 1 ∧
    countDbArtifacts (send_recording 1 2 true false []).fs = 1 ∧
    (send_recording 1 2 true false []).outcome = Except.error PyErr.ioError :=
  ⟨by decide, by decide, rfl⟩

/-- C6 amended: starting from a file system without recording
artifacts, every intermediate state of the export-and-send operation
holds at most one Export Artifact and at most one Archive; when
archive creation succeeded, the operation returns (transfer success or
swallowed failure) with both removed; when archive creation fails,
both the Export Artifact and the partially created Archive may remain
on disk. -/
theorem send_recording_artifact_invariant (a b : Nat) (af sf : Bool)
    (fs0 : List String) (_h1 : fs0.Nodup)
    (h2 : ∀ f ∈ fs0, isDbArtifactName f = false ∧ isZipArchiveName f = false) :
    (∀ s ∈ (send_recording a b af sf fs0).snapshots,
        countDbArtifacts s ≤ 1 ∧ countZipArchives s ≤ 1) ∧
    (af = false →
      countDbArtifacts (send_recording a b af sf fs0).fs = 0 ∧
      countZipArchives (send_recording a b af sf fs0).fs = 0) := by
  have hP0 : encodeDbFilename a b ∉ fs0 := fun hm => by
    have hx := (h2 _ hm).1
    rw [isDb_encodeDb] at hx
    exact Bool.noConfusion hx
  have hZ0 : encodeZipFilename a b ∉ fs0 := fun hm => by
    have hx := (h2 _ hm).2
    rw [isZip_encodeZip] at hx
    exact Bool.noConfusion hx
  have hcd0 : countDbArtifacts fs0 = 0 := by
    unfold countDbArtifacts
    rw [List.countP_eq_zero]
    intro f hf
    simp [(h2 f hf).1]
  have hcz0 : countZipArchives fs0 = 0 := by
    unfold countZipArchives
    rw [List.countP_eq_zero]
    intro f hf
    simp [(h2 f hf).2]
  have hcd1 : countDbArtifacts (encodeDbFilename a b :: fs0) = 1 := by
    unfold countDbArtifacts at *
    rw [List.countP_cons]
    simp [isDb_encodeDb, hcd0]
  have hcz1 : countZipArchives (encodeDbFilename a b :: fs0) = 0 := by
    unfold countZipArchives at *
    rw [List.countP_cons]
    simp [isZip_encodeDb, hcz0]
  have hcd2 : countDbArtifacts
      (encodeZipFilename a b :: encodeDbFilename a b :: fs0) = 1 := by
    unfold countDbArtifacts at *
    rw [List.countP_cons]
    simp [isDb_encodeZip, hcd1]
  have hcz2 : countZipArchives
      (encodeZipFilename a b :: encodeDbFilename a b :: fs0) = 1 := by
    unfold countZipArchives at *
    rw [List.countP_cons]
    simp [isZip_encodeZip, hcz1]
  have hcd3 : countDbArtifacts (encodeZipFilename a b :: fs0) = 0 := by
    unfold countDbArtifacts at *
    rw [List.countP_cons]
    simp [isDb_encodeZip, hcd0]
  have hcz3 : countZipArchives (encodeZipFilename a b :: fs0) = 1 := by
    unfold countZipArchives at *
    rw [List.countP_cons]
    simp [isZip_encodeZip, hcz0]
  have hfs1 : fsCreate fs0 (encodeDbFilename a b) = encodeDbFilename a b :: fs0 := by
    unfold fsCreate
    rw [if_neg hP0]
  have hZ1 : encodeZipFilename a b ∉ encodeDbFilename a b :: fs0 := by
    intro hm
    rcases List.mem_cons.mp hm with he | hm0
    · exact encodeDb_ne_encodeZip a b a b he.symm
    · exact hZ0 hm0
  have hfs2 : fsCreate (encodeDbFilename a b :: fs0) (encodeZipFilename a b)
      = encodeZipFilename a b :: encodeDbFilename a b :: fs0 := by
    unfold fsCreate
    rw [if_neg hZ1]
  cases af with
  | true =>
    simp only [send_recording, export_recording_to_folder, extract_encode,
      eq_self_iff_true, if_true, hfs1, hfs2]
    refine ⟨?_, ?_⟩
    · intro s hs
      have hor : s = fs0 ∨ s = encodeDbFilename a b :: fs0 ∨
          s = encodeZipFilename a b :: encodeDbFilename a b :: fs0 := by
        simpa using hs
      rcases hor with h | h | h
      · rw [h]; exact ⟨by simp [hcd0], by simp [hcz0]⟩
      · rw [h]; exact ⟨by simp [hcd1], by simp [hcz1]⟩
      · rw [h]; exact ⟨by simp [hcd2], by simp [hcz2]⟩
    · intro hcontra
      exact Bool.noConfusion hcontra
  | false =>
    have hbeq : ¬(encodeZipFilename a b == encodeDbFilename a b) := by
      simp only [beq_iff_eq]
      exact fun hh => encodeDb_ne_encodeZip a b a b hh.symm
    have hfs3 : (encodeZipFilename a b :: encodeDbFilename a b :: fs0).erase
        (encodeDbFilename a b) = encodeZipFilename a b :: fs0 := by
      rw [List.erase_cons_tail hbeq, List.erase_cons_head]
    simp only [send_recording, export_recording_to_folder, extract_encode,
      Bool.false_eq_true, if_false, fsRemove, hfs1, hfs2, hfs3]
    have hmem : encodeZipFilename a b ∈ encodeZipFilename a b :: fs0 :=
      List.mem_cons_self _ _
    simp only [hmem, if_true, List.erase_cons_head]
    refine ⟨?_, fun _ => ⟨hcd0, hcz0⟩⟩
    intro s hs
    have hor : s = fs0 ∨ s = encodeDbFilename a b :: fs0 ∨
        s = encodeZipFilename a b :: encodeDbFilename a b :: fs0 ∨
        s = encodeZipFilename a b :: fs0 ∨ s = fs0 := by
      simpa using hs
    rcases hor with h | h | h | h | h
    · rw [h]; exact ⟨by simp [hcd0], by simp [hcz0]⟩
    · rw [h]; exact ⟨by simp [hcd1], by simp [hcz1]⟩
    · rw [h]; exact ⟨by simp [hcd2], by simp [hcz2]⟩
    · rw [h]; exact ⟨by simp [hcd3], by simp [hcz3]⟩
    · rw [h]; exact ⟨by simp [hcd0], by simp [hcz0]⟩

/-- Witness for `send_recording_artifact_invariant` at a concrete
input. -/
theorem send_recording_artifact_invariant_witness :
    ([] : List String).Nodup ∧
    ((∀ s ∈ (send_recording 1 2 false true []).snapshots,
        countDbArtifacts s ≤ 1 ∧ countZipArchives s ≤ 1) ∧
     (false = false →
       countDbArtifacts (send_recording 1 2 false true []).fs = 0 ∧
       countZipArchives (send_recording 1 2 false true []).fs = 0)) :=
  ⟨List.nodup_nil,
   send_recording_artifact_invariant 1 2 false true [] List.nodup_nil
     (by simp)⟩
